import Mathlib

/-!
Shallow embedding of the `energy_charts` Home Assistant custom integration
(data acquisition and aggregation pipeline), together with theorems that
settle a fixed list of claims about its specification.

Sources embedded:
* `custom_components/energy_charts/models.py` — `EnergyDataSeries`
  (name normalization, key derivation, latest value/timestamp, data points)
  and `EnergyChartsResponse.from_api_response`.
* `custom_components/energy_charts/const.py` — category constants and tables.
* `custom_components/energy_charts/coordinator.py` — `_process_response`,
  `_calculate_aggregated`, `_calculate_categories`, `_fetch_historical_data`,
  `_async_update_data`.
* `custom_components/energy_charts/api.py` — `_make_request` retry loop and
  the `get_current_day` / `get_current_week` endpoint construction.

Modelling conventions: Python strings are Lean `String` (character lists via
`String.data` where character-level reasoning is needed); Python floats are
`ℚ` (the claims under consideration only involve values where IEEE-754
artifacts play no role, and `round(x, 2)` is modelled as exact half-to-even
decimal rounding); Unix millisecond timestamps stay raw `Int` values instead
of being converted to `datetime` (the conversion `ts ↦ fromtimestamp (ts/1000)`
is a fixed injection that plays no role in the claims); JSON values are the
inductive `JVal`; a Python `dict` used as a record of known optional keys is a
structure of `Option` fields; raising code is modelled with `Except` /
`Option`.
-/

namespace EnergyCharts

/-- JSON-like values, the raw shapes the upstream API can put in a field. -/
inductive JVal where
  | null : JVal
  | bool : Bool → JVal
  | num : ℚ → JVal
  | str : String → JVal
  | dict : List (String × JVal) → JVal
  | arr : List JVal → JVal

/-- `models.EnergyDataSeries.normalize_name` (pydantic `mode="before"`
validator): a nonempty list yields its first element, a dict is returned
as-is, anything else becomes the empty dict. -/
def normalize_name (v : JVal) : JVal :=
  match v with
  | JVal.arr (x :: _) => x
  | JVal.dict d => JVal.dict d
  | _ => JVal.dict []

/-- Association-list lookup with default: Python `d.get(k, default)`. -/
def lookupD {α : Type} (l : List (String × α)) (k : String) (d : α) : α :=
  ((l.find? (fun p => p.1 == k)).map Prod.snd).getD d

/-- One raw series object of the JSON array, seen as a record of the keys the
code reads (`name`, `color`, `data`, `xAxisValues`, `visible`); a missing key
is `none`.  The `data` field carries the pydantic-validated shape
`list[float | None]`. -/
structure RawItem where
  name : Option JVal := none
  color : Option String := none
  data : Option (List (Option ℚ)) := none
  xAxisValues : Option (List Int) := none
  visible : Option Bool := none

/-- `models.EnergyDataSeries` after pydantic validation. -/
structure EnergyDataSeries where
  name : List (String × String)
  color : String
  data : List (Option ℚ)
  timestamps : List Int
  visible : Bool
  deriving DecidableEq, Repr

/-- Pydantic validation of the normalized `name` against `dict[str, str]`:
a dict whose values are all strings validates, anything else raises. -/
def validate_name_dict (v : JVal) : Option (List (String × String)) :=
  match v with
  | JVal.dict entries =>
      entries.mapM (fun p =>
        match p.2 with
        | JVal.str s => some (p.1, s)
        | _ => none)
  | _ => none

/-- The per-item body of `EnergyChartsResponse.from_api_response`: items
missing `name` or `data` are skipped; retained items are validated into an
`EnergyDataSeries` with the shared timestamp axis; a validation failure
raises (propagates as `none`). -/
def parse_items (timestamps : List Int) : List RawItem → Option (List EnergyDataSeries)
  | [] => some []
  | item :: rest =>
    match item.name, item.data with
    | some nameRaw, some dataRaw =>
      match validate_name_dict (normalize_name nameRaw) with
      | none => none
      | some nm =>
        match parse_items timestamps rest with
        | none => none
        | some tail =>
          some ({ name := nm
                  color := item.color.getD "#000000"
                  data := dataRaw
                  timestamps := timestamps
                  visible := item.visible.getD true } :: tail)
    | _, _ => parse_items timestamps rest

/-- `EnergyChartsResponse.from_api_response`: the timestamp axis is
`response_data[0].get("xAxisValues", [])`, applied to every retained series. -/
def from_api_response (response_data : List RawItem) : Option (List EnergyDataSeries) :=
  match response_data with
  | [] => some []
  | first :: _ =>
      parse_items (first.xAxisValues.getD []) response_data

/-- The shared timestamp axis `from_api_response` hands to every series. -/
def response_axis (response_data : List RawItem) : List Int :=
  match response_data with
  | [] => []
  | first :: _ => first.xAxisValues.getD []

/-- `EnergyDataSeries.name_en`: `self.name.get("en", "Unknown")`. -/
def name_en (s : EnergyDataSeries) : String :=
  lookupD s.name "en" "Unknown"

/-- `EnergyDataSeries.name_de`: `self.name.get("de", "Unbekannt")`. -/
def name_de (s : EnergyDataSeries) : String :=
  lookupD s.name "de" "Unbekannt"

/-! ### Key derivation (`EnergyDataSeries.key`)

The Python property lowercases the English name, then runs a chain of
`str.replace` calls, then a `while "__" in key` collapse loop, then
`strip("_")`.  Single-character `str.replace(a, b)` is a character map and
`str.replace(a, "")` a filter; the two-character `replace("__", "_")` is the
left-to-right non-overlapping scan `replaceDD` below, iterated to a fixed
point by the `while` loop (`collapseDD`, with fuel bounded by the length). -/

/-- Python `s.lower()` (the names in play are ASCII). -/
def pyLower (s : List Char) : List Char := s.map Char.toLower

/-- Python `s.replace(a, b)` for single characters `a`, `b`. -/
def replaceChar (a b : Char) (s : List Char) : List Char :=
  s.map (fun c => if c = a then b else c)

/-- Python `s.replace(a, "")` for a single character `a`. -/
def removeChar (a : Char) (s : List Char) : List Char :=
  s.filter (fun c => c ≠ a)

/-- One pass of Python `s.replace("__", "_")`: left-to-right, non-overlapping. -/
def replaceDD : List Char → List Char
  | [] => []
  | [c] => [c]
  | c1 :: c2 :: rest =>
    if c1 = '_' ∧ c2 = '_' then '_' :: replaceDD rest
    else c1 :: replaceDD (c2 :: rest)

/-- Python `"__" in s`. -/
def hasDD : List Char → Bool
  | [] => false
  | [_] => false
  | c1 :: c2 :: rest => (c1 == '_' && c2 == '_') || hasDD (c2 :: rest)

/-- The `while "__" in key:` loop, with explicit fuel (each pass on a string
that still contains `"__"` strictly shrinks it, so `s.length` fuel always
reaches the fixed point). -/
def collapseDD : Nat → List Char → List Char
  | 0, s => s
  | fuel + 1, s => if hasDD s then collapseDD fuel (replaceDD s) else s

/-- Leading part of Python `s.strip("_")`. -/
def lstripU (s : List Char) : List Char := s.dropWhile (fun c => c = '_')

/-- Trailing part of Python `s.strip("_")`. -/
def rstripU : List Char → List Char
  | [] => []
  | c :: rest =>
    match rstripU rest with
    | [] => if c = '_' then [] else [c]
    | r => c :: r

/-- Python `s.strip("_")`. -/
def stripU (s : List Char) : List Char := rstripU (lstripU s)

/-- The `str.replace` chain of `EnergyDataSeries.key`: replace `" "`, `"/"`,
`"-"` by `"_"`, delete `"("`, `")"`, `","`, in the source's order. -/
def scrubbed (name : List Char) : List Char :=
  removeChar ','
    (removeChar ')'
      (removeChar '('
        (replaceChar '-' '_'
          (replaceChar '/' '_'
            (replaceChar ' ' '_' name)))))

/-- `EnergyDataSeries.key` as a function of the English name: lowercase,
run the replace chain, collapse `"__"` runs, strip `"_"` from both ends. -/
def derive_key (nameEn : String) : String :=
  let name := pyLower nameEn.data
  let key := scrubbed name
  let key := collapseDD key.length key
  String.mk (stripU key)

/-- The characters the key derivation eliminates: the three it maps to
underscores and the three it deletes. -/
def forbiddenChar (c : Char) : Bool :=
  c == ' ' || c == '/' || c == '-' || c == '(' || c == ')' || c == ','

/-- `EnergyDataSeries.key` (derived from `name_en`). -/
def series_key (s : EnergyDataSeries) : String := derive_key (name_en s)

/-- `EnergyDataSeries.latest_value`: last non-`None` entry, scanning from
the end, else `None`. -/
def latest_value (s : EnergyDataSeries) : Option ℚ :=
  s.data.reverse.findSome? id

/-- `EnergyDataSeries.latest_timestamp`: scan indices from the end; the
first index with a non-`None` value that is inside the timestamp list gives
that timestamp (kept as raw Unix milliseconds). -/
def latest_timestamp (s : EnergyDataSeries) : Option Int :=
  if s.timestamps.isEmpty || s.data.isEmpty then none
  else
    s.data.enum.reverse.findSome? (fun p =>
      match p.2 with
      | some _ => if p.1 < s.timestamps.length then s.timestamps.get? p.1 else none
      | none => none)

/-- `EnergyDataSeries.get_data_points`: `(timestamps[i], data[i])` for every
index `i` whose value is non-`None` and within the timestamp list. -/
def get_data_points (s : EnergyDataSeries) : List (Int × ℚ) :=
  s.data.enum.filterMap (fun p =>
    match p.2 with
    | some val =>
        if h : p.1 < s.timestamps.length then some (s.timestamps.get ⟨p.1, h⟩, val)
        else none
    | none => none)

/-! ### Constants (`const.py`) -/

def CATEGORY_RENEWABLE : String := "renewable"
def CATEGORY_FOSSIL : String := "fossil"
def CATEGORY_NUCLEAR : String := "nuclear"
def CATEGORY_STORAGE : String := "storage"

def FOSSIL_SOURCES : List String :=
  [ "fossil_brown_coal_lignite"
  , "fossil_brown_coal/lignite"
  , "fossil_hard_coal"
  , "fossil_coal-derived_gas"
  , "fossil_gas"
  , "fossil_oil" ]

def SOURCE_CATEGORIES : List (String × String) :=
  [ ("hydro_run-of-river", CATEGORY_RENEWABLE)
  , ("biomass", CATEGORY_RENEWABLE)
  , ("wind_offshore", CATEGORY_RENEWABLE)
  , ("wind_onshore", CATEGORY_RENEWABLE)
  , ("photovoltaic", CATEGORY_RENEWABLE)
  , ("solar", CATEGORY_RENEWABLE)
  , ("hydro_water_reservoir", CATEGORY_RENEWABLE)
  , ("geothermal", CATEGORY_RENEWABLE)
  , ("fossil_brown_coal_lignite", CATEGORY_FOSSIL)
  , ("fossil_brown_coal/lignite", CATEGORY_FOSSIL)
  , ("fossil_hard_coal", CATEGORY_FOSSIL)
  , ("fossil_coal-derived_gas", CATEGORY_FOSSIL)
  , ("fossil_gas", CATEGORY_FOSSIL)
  , ("fossil_oil", CATEGORY_FOSSIL)
  , ("nuclear", CATEGORY_NUCLEAR)
  , ("hydro_pumped_storage", CATEGORY_STORAGE)
  , ("battery", CATEGORY_STORAGE)
  , ("battery_storage", CATEGORY_STORAGE) ]

def SENSOR_TOTAL_PRODUCTION : String := "total_production"
def SENSOR_TOTAL_RENEWABLE : String := "total_renewable"
def SENSOR_RENEWABLE_SHARE : String := "renewable_share"
def SENSOR_TOTAL_FOSSIL : String := "total_fossil"
def SENSOR_TOTAL_NUCLEAR : String := "total_nuclear"

def SENSOR_SOLAR_TOTAL : String := "solar_total"
def SENSOR_WIND_TOTAL : String := "wind_total"
def SENSOR_HYDRO_TOTAL : String := "hydro_total"
def SENSOR_FOSSIL_TOTAL : String := "fossil_total"

/-! ### Rounding

Python `round(x, 2)` rounds half to even at the second decimal place.  The
claims only involve values where the binary-float representation plays no
role, so the exact decimal rounding below is the faithful model. -/

/-- Round half to even to the nearest integer. -/
def roundHalfEven (x : ℚ) : ℤ :=
  let f := ⌊x⌋
  if x - f < 1 / 2 then f
  else if x - f > 1 / 2 then f + 1
  else if f % 2 = 0 then f else f + 1

/-- Python `round(x, 2)`. -/
def pyRound2 (x : ℚ) : ℚ := (roundHalfEven (x * 100) : ℚ) / 100

/-! ### Aggregation Engine (`coordinator.py`) -/

/-- One entry of the coordinator's `sources` dict (`_process_response`). -/
structure SourceData where
  value : Option ℚ
  unit : String
  timestamp : Option Int
  name_en : String
  name_de : String
  color : String
  category : String
  key : String
  deriving DecidableEq

/-- The accumulation loop of `_calculate_aggregated`: one pass over the
sources summing (production, renewable, fossil, nuclear) at full precision.
Entries with `value is None` are skipped; only strictly positive values
count towards production; the `elif` chain buckets by category. -/
def aggTotals (sources : List (String × SourceData)) : ℚ × ℚ × ℚ × ℚ :=
  sources.foldl
    (fun acc p =>
      match p.2.value with
      | none => acc
      | some value =>
        let total_production := if value > 0 then acc.1 + value else acc.1
        let category := p.2.category
        let rest :=
          if category = CATEGORY_RENEWABLE then (acc.2.1 + value, acc.2.2.1, acc.2.2.2)
          else if category = CATEGORY_FOSSIL then (acc.2.1, acc.2.2.1 + value, acc.2.2.2)
          else if category = CATEGORY_NUCLEAR then (acc.2.1, acc.2.2.1, acc.2.2.2 + value)
          else (acc.2.1, acc.2.2.1, acc.2.2.2)
        (total_production, rest))
    (0, 0, 0, 0)

/-- `_calculate_aggregated`: the returned dict, in insertion order, with
every reported value rounded to 2 decimals at the boundary and the
renewable share computed from the full-precision totals (0.0 when
production is not positive). -/
def calculate_aggregated (sources : List (String × SourceData)) : List (String × ℚ) :=
  let t := aggTotals sources
  [ (SENSOR_TOTAL_PRODUCTION, pyRound2 t.1)
  , (SENSOR_TOTAL_RENEWABLE, pyRound2 t.2.1)
  , (SENSOR_TOTAL_FOSSIL, pyRound2 t.2.2.1)
  , (SENSOR_TOTAL_NUCLEAR, pyRound2 t.2.2.2)
  , (SENSOR_RENEWABLE_SHARE,
     if t.1 > 0 then pyRound2 (t.2.1 / t.1 * 100) else 0) ]

/-- Python `key in sources` plus `sources[key]`. -/
def getSource (sources : List (String × SourceData)) (k : String) : Option SourceData :=
  (sources.find? (fun p => p.1 == k)).map Prod.snd

/-- Python truthiness of `sources[key].get("value")` (a `float | None`):
`None` and `0.0` are falsy. -/
def truthyValue : Option ℚ → Bool
  | none => false
  | some v => v != 0

/-- One category loop of `_calculate_categories`:
`if key in sources and sources[key].get("value"): total += sources[key]["value"]`. -/
def sumPresent (sources : List (String × SourceData)) (keys : List String) : ℚ :=
  keys.foldl
    (fun total k =>
      match getSource sources k with
      | some sd => if truthyValue sd.value then total + sd.value.getD 0 else total
      | none => total)
    0

/-- `_calculate_categories`: the four group sums, in insertion order, each
rounded to 2 decimals. -/
def calculate_categories (sources : List (String × SourceData)) : List (String × ℚ) :=
  [ (SENSOR_SOLAR_TOTAL, pyRound2 (sumPresent sources ["photovoltaic", "solar"]))
  , (SENSOR_WIND_TOTAL, pyRound2 (sumPresent sources ["wind_onshore", "wind_offshore"]))
  , (SENSOR_HYDRO_TOTAL, pyRound2 (sumPresent sources
      ["hydro_run-of-river", "hydro_water_reservoir", "hydro_pumped_storage"]))
  , (SENSOR_FOSSIL_TOTAL, pyRound2 (sumPresent sources FOSSIL_SOURCES)) ]

/-! ### Fetch Client (`api.py`) -/

/-- The typed failures of the fetch client (`EnergyCharts*Error`). -/
inductive ApiError where
  | connection : ApiError
  | timeout : ApiError
  | notFound : ApiError
  | data : ApiError
  deriving DecidableEq

/-- What one HTTP attempt of `_make_request` can observe at the transport
layer: a 404 status, a timeout, another `aiohttp.ClientError` (including
`raise_for_status` failures), a JSON body that is not a list, any other
unexpected exception, or a successful list body. -/
inductive AttemptOutcome where
  | success : List RawItem → AttemptOutcome
  | http404 : AttemptOutcome
  | timeout : AttemptOutcome
  | clientError : AttemptOutcome
  | notList : AttemptOutcome
  | unexpected : AttemptOutcome

/-- The `except` clauses of `_make_request`: how a failed attempt updates
`last_exception`.  (The in-`try` `EnergyChartsDataError` raised for a
non-list body is caught by the blanket `except Exception` and re-wrapped as
a data error, so it is retried like any other data failure.  `success` and
`http404` never reach this classification in the loop.) -/
def classify_failure : AttemptOutcome → ApiError
  | AttemptOutcome.timeout => ApiError.timeout
  | AttemptOutcome.clientError => ApiError.connection
  | AttemptOutcome.notList => ApiError.data
  | AttemptOutcome.unexpected => ApiError.data
  | AttemptOutcome.success _ => ApiError.data
  | AttemptOutcome.http404 => ApiError.notFound

/-- The attempt loop of `_make_request`, indexed by the number of remaining
attempts.  `script n` is what attempt `n` (0-based, as in
`for attempt in range(retries)`) observes.  The second component collects
the `asyncio.sleep` backoff durations actually awaited, in order:
`backoff_factor * 2 ** attempt`, issued only when another attempt follows
(`attempt < retries - 1`, i.e. `remaining ≥ 1` here).  A 404 raises
immediately without sleeping; a success returns immediately; exhaustion
raises the last classified failure, or a generic connection failure if no
attempt ever ran. -/
def make_request_go (script : Nat → AttemptOutcome) (backoff_factor : ℚ) :
    Nat → Nat → Option ApiError → Except ApiError (List RawItem) × List ℚ
  | 0, _, last =>
    (match last with
     | some e => Except.error e
     | none => Except.error ApiError.connection, [])
  | remaining + 1, attempt, _ =>
    match script attempt with
    | AttemptOutcome.success body => (Except.ok body, [])
    | AttemptOutcome.http404 => (Except.error ApiError.notFound, [])
    | outcome =>
      let last := classify_failure outcome
      let sleeps := if 1 ≤ remaining then [backoff_factor * 2 ^ attempt] else []
      let r := make_request_go script backoff_factor remaining (attempt + 1) (some last)
      (r.1, sleeps ++ r.2)

/-- `_make_request` with its attempt budget (`retries`, default 3) and
backoff factor, returning the result together with the backoff sleeps
issued. -/
def make_request (script : Nat → AttemptOutcome) (retries : Nat)
    (backoff_factor : ℚ) : Except ApiError (List RawItem) × List ℚ :=
  make_request_go script backoff_factor retries 0 none

/-- Python `f"{n:02d}"` for the non-negative week/month numbers in play. -/
def pad2 (n : Nat) : String := if n < 10 then "0" ++ toString n else toString n

/-- `get_current_day`: the endpoint it requests, as a function of the
current ISO calendar year and week — `f"week_{year}_{week:02d}.json"`
(there is no daily endpoint upstream, so the current ISO week is used). -/
def get_current_day_endpoint (isoYear : Nat) (isoWeek : Nat) : String :=
  "week_" ++ toString isoYear ++ "_" ++ pad2 isoWeek ++ ".json"

/-- `get_current_week`: the endpoint it requests, as a function of the
current ISO calendar year and week — `f"week_{year}_{week:02d}.json"`. -/
def get_current_week_endpoint (isoYear : Nat) (isoWeek : Nat) : String :=
  "week_" ++ toString isoYear ++ "_" ++ pad2 isoWeek ++ ".json"

/-! ### Polling Orchestrator (`coordinator.py`) -/

/-- Python `needle in haystack` on strings: the needle occurs as a
contiguous substring. -/
def contains_sub (needle haystack : String) : Bool :=
  decide (needle.data <:+: haystack.data)

/-- `series.key.lower()` as computed in `_process_response` and
`_fetch_historical_data`. -/
def source_key_of (s : EnergyDataSeries) : String :=
  String.mk (pyLower (series_key s).data)

/-- The per-series record built by `_process_response` (value, unit,
timestamp of that value, display names, color, category from the static
table with `"other"` fallback, and the key itself). -/
def source_record (s : EnergyDataSeries) : String × SourceData :=
  let source_key := source_key_of s
  (source_key,
   { value := latest_value s
     unit := "MW"
     timestamp := latest_timestamp s
     name_en := name_en s
     name_de := name_de s
     color := s.color
     category := lookupD SOURCE_CATEGORIES source_key "other"
     key := source_key })

/-- The sources loop of `_process_response`: series whose key contains
`"_planned"` or `"forecast"` are skipped; the rest are recorded under their
key. -/
def process_sources (response : List EnergyDataSeries) : List (String × SourceData) :=
  (response.filter (fun s =>
    !(contains_sub "_planned" (source_key_of s) || contains_sub "forecast" (source_key_of s)))).map
    source_record

/-- The structured dict `_process_response` builds (its wall-clock
`timestamp` field is omitted: no claim depends on it). -/
structure StructuredData where
  raw_response : List EnergyDataSeries
  sources : List (String × SourceData)
  aggregated : List (String × ℚ)
  categories : List (String × ℚ)
  history : List (String × List (Int × ℚ))
  forecasts : List (String × List (Int × ℚ))
  deriving DecidableEq

/-- `_process_response`. -/
def process_response (response : List EnergyDataSeries) : StructuredData :=
  let sources := process_sources response
  { raw_response := response
    sources := sources
    aggregated := calculate_aggregated sources
    categories := calculate_categories sources
    history := []
    forecasts := [] }

/-- The list comprehension of `_fetch_historical_data`:
`[(fromtimestamp(ts / 1000), float(val)) for ts, val in series.data if val is not None]`.
`series.data` is `list[float | None]`, so the tuple-unpacking `for ts, val`
raises `TypeError` on the first element whenever the list is nonempty; the
comprehension completes (with `[]`) only on an empty list.  `none` models
the raised exception. -/
def history_points (s : EnergyDataSeries) : Option (List (Int × ℚ)) :=
  match s.data with
  | [] => some []
  | _ :: _ => none

/-- The series loop of `_fetch_historical_data`: entries written into the
`history` dict before an exception are kept; an exception aborts the loop
(it is caught by the surrounding `except`, which returns the history
accumulated so far). -/
def build_history (acc : List (String × List (Int × ℚ))) :
    List EnergyDataSeries → List (String × List (Int × ℚ))
  | [] => acc
  | s :: rest =>
    match history_points s with
    | none => acc
    | some pts => build_history (acc ++ [(source_key_of s, pts)]) rest

/-- `_fetch_historical_data`: for a configured range of day/week/month the
corresponding fetch runs (its outcome is the `fetched` argument; `day` and
`week` both hit the current-week endpoint); any exception — a failed fetch
or an error in the conversion loop — is caught and the history accumulated
so far is returned; any other range returns the empty history without
fetching. -/
def fetch_historical_data (historical_range : String)
    (fetched : Except ApiError (List EnergyDataSeries)) :
    List (String × List (Int × ℚ)) :=
  if historical_range = "day" ∨ historical_range = "week" ∨ historical_range = "month" then
    match fetched with
    | Except.error _ => []
    | Except.ok response => build_history [] response
  else []

/-- `_async_update_data`: fetch the day window (outcome `day_fetch`); on
failure re-raise (as `UpdateFailed`); on success process the response and,
when a historical range other than `"none"` is configured, attach the
history from the historical fetch (outcome `hist_fetch`). -/
def async_update_data (day_fetch : Except ApiError (List EnergyDataSeries))
    (historical_range : String)
    (hist_fetch : Except ApiError (List EnergyDataSeries)) :
    Except ApiError StructuredData :=
  match day_fetch with
  | Except.error e => Except.error e
  | Except.ok response =>
    let structured_data := process_response response
    if historical_range ≠ "none" then
      Except.ok { structured_data with
                  history := fetch_historical_data historical_range hist_fetch }
    else
      Except.ok structured_data

/-! ### Concrete inputs used by the theorems below -/

/-- A source entry as `_process_response` would build it for a given key and
latest value, with the category taken from the static table. -/
def mkSource (k : String) (v : ℚ) : String × SourceData :=
  (k, { value := some v
        unit := "MW"
        timestamp := none
        name_en := k
        name_de := k
        color := "#000000"
        category := lookupD SOURCE_CATEGORIES k "other"
        key := k })

/-- The aggregation example of the claims:
`{solar: 10, wind_onshore: 5, fossil_gas: 20}`. -/
def exAggSources : List (String × SourceData) :=
  [mkSource "solar" 10, mkSource "wind_onshore" 5, mkSource "fossil_gas" 20]

/-- A renewable source with a negative latest value next to a fossil one. -/
def exNegSources : List (String × SourceData) :=
  [mkSource "solar" (-10), mkSource "fossil_gas" 20]

/-- A series with one non-null value, as the historical conversion loop
receives it. -/
def exHistSeries : EnergyDataSeries :=
  { name := [("en", "Solar")]
    color := "#ffcc00"
    data := [some 100]
    timestamps := [1000]
    visible := true }

/-- A series with an empty value list (its historical conversion completes
with an empty list). -/
def exEmptySeries : EnergyDataSeries :=
  { name := [("en", "Biomass")]
    color := "#00cc00"
    data := []
    timestamps := []
    visible := true }

/-- An attempt script whose first attempt observes a 404. -/
def ex404Script : Nat → AttemptOutcome := fun _ => AttemptOutcome.http404

/-- An attempt script with timeouts on attempts 1 and 2 and a successful
empty-list body on attempt 3. -/
def exTimeoutScript : Nat → AttemptOutcome :=
  fun n => if n < 2 then AttemptOutcome.timeout else AttemptOutcome.success []

/-- A raw response whose only series has three data values against a
one-element timestamp axis. -/
def exMismatchedResponse : List RawItem :=
  [{ name := some (JVal.dict [("en", JVal.str "Solar")])
     data := some [some 1, some 2, some 3]
     xAxisValues := some [100] }]

/-- The series `from_api_response` produces from `exMismatchedResponse`. -/
def exMismatchedSeries : EnergyDataSeries :=
  { name := [("en", "Solar")]
    color := "#000000"
    data := [some 1, some 2, some 3]
    timestamps := [100]
    visible := true }

/-- A raw response whose only series is well-formed: two data values on a
two-element axis. -/
def exAlignedResponse : List RawItem :=
  [{ name := some (JVal.dict [("en", JVal.str "Solar")])
     data := some [some 1, none]
     xAxisValues := some [100, 200] }]

/-- The series `from_api_response` produces from `exAlignedResponse`. -/
def exAlignedSeries : EnergyDataSeries :=
  { name := [("en", "Solar")]
    color := "#000000"
    data := [some 1, none]
    timestamps := [100, 200]
    visible := true }

/-- A series whose English name contains a character (`.`) outside the set
the key derivation handles. -/
def exDotSeries : EnergyDataSeries :=
  { name := [("en", "a.b")]
    color := "#000000"
    data := []
    timestamps := []
    visible := true }

/-! ### Theorems -/

/-- C7: for the same wall-clock instant (hence the same ISO calendar year
and week), `get_current_day` and `get_current_week` construct the identical
endpoint path, the current ISO week's `week_<ISOyear>_<ISOweek:2digits>.json`,
so the two fetch operations are equivalent. -/
theorem claim_C7_day_week_same_endpoint (isoYear isoWeek : Nat) :
    get_current_day_endpoint isoYear isoWeek = get_current_week_endpoint isoYear isoWeek
    ∧ get_current_day_endpoint isoYear isoWeek =
        "week_" ++ toString isoYear ++ "_" ++ pad2 isoWeek ++ ".json" :=
  ⟨rfl, rfl⟩

/-- C1 (code evaluation at the failing input): the correct pairing of the
series `{data = [100], timestamps = [1000]}` is `[(1000, 100)]`
(as `get_data_points` computes), but `_fetch_historical_data` iterates
`for ts, val in series.data` over the flat value list, so the conversion
raises `TypeError`, the blanket `except` swallows it, and a successful
week-range historical fetch of this series publishes an empty history. -/
theorem claim_C1_code_evaluation :
    get_data_points exHistSeries = [(1000, 100)]
    ∧ fetch_historical_data "week" (Except.ok [exHistSeries]) = []
    ∧ async_update_data (Except.ok [exHistSeries]) "week" (Except.ok [exHistSeries])
        = Except.ok (process_response [exHistSeries]) :=
  ⟨rfl, rfl, rfl⟩

/-- C8: only `total_production` filters contributions to strictly positive
values; the renewable/fossil/nuclear buckets sum their categories regardless
of sign.  With a renewable source at −10 and a fossil source at 20, the
production total is 20 (the negative value excluded), the renewable total is
−10 (the negative value included), and the renewable share is −50, i.e.
negative. -/
theorem claim_C8_negative_share :
    calculate_aggregated exNegSources =
      [ ("total_production", 20)
      , ("total_renewable", -10)
      , ("total_fossil", 20)
      , ("total_nuclear", 0)
      , ("renewable_share", -50) ]
    ∧ lookupD exNegSources "solar" (mkSource "solar" 0).2
        = (mkSource "solar" (-10)).2
    ∧ (-50 : ℚ) < 0 := by
  refine ⟨?_, rfl, by norm_num⟩
  have h : aggTotals exNegSources = (20, -10, 20, 0) := by
    simp [aggTotals, exNegSources, mkSource, lookupD, SOURCE_CATEGORIES, List.find?,
      CATEGORY_RENEWABLE, CATEGORY_FOSSIL, CATEGORY_NUCLEAR]
    try norm_num
  rw [calculate_aggregated, h]
  norm_num [pyRound2, roundHalfEven, SENSOR_TOTAL_PRODUCTION, SENSOR_TOTAL_RENEWABLE,
    SENSOR_TOTAL_FOSSIL, SENSOR_TOTAL_NUCLEAR, SENSOR_RENEWABLE_SHARE]

/-- C3: on `{solar: 10 (renewable), wind_onshore: 5 (renewable),
fossil_gas: 20 (fossil)}` the aggregation reports `total_production = 35`,
`total_renewable = 15`, `total_fossil = 20`, and `renewable_share = 42.86`
(the full-precision share 300/7 rounded to 2 decimals at the boundary);
and for every input whose accumulated production is not positive, the
reported renewable share is 0. -/
theorem claim_C3_aggregation_totals :
    (calculate_aggregated exAggSources =
      [ ("total_production", 35)
      , ("total_renewable", 15)
      , ("total_fossil", 20)
      , ("total_nuclear", 0)
      , ("renewable_share", 42.86) ]
     ∧ (15 : ℚ) / 35 * 100 = 300 / 7 ∧ pyRound2 (300 / 7) = 42.86)
    ∧ ∀ sources : List (String × SourceData),
        (aggTotals sources).1 ≤ 0 →
        lookupD (calculate_aggregated sources) "renewable_share" (-1) = 0 := by
  constructor
  · refine ⟨?_, by norm_num, by norm_num [pyRound2, roundHalfEven]⟩
    have h : aggTotals exAggSources = (35, 15, 20, 0) := by
      simp [aggTotals, exAggSources, mkSource, lookupD, SOURCE_CATEGORIES, List.find?,
        CATEGORY_RENEWABLE, CATEGORY_FOSSIL, CATEGORY_NUCLEAR]
      try norm_num
    rw [calculate_aggregated, h]
    norm_num [pyRound2, roundHalfEven, SENSOR_TOTAL_PRODUCTION, SENSOR_TOTAL_RENEWABLE,
      SENSOR_TOTAL_FOSSIL, SENSOR_TOTAL_NUCLEAR, SENSOR_RENEWABLE_SHARE]
  · intro sources hle
    simp only [calculate_aggregated]
    rw [if_neg (not_lt.mpr hle)]
    rfl

/-- Witness for C3: at the empty source mapping the accumulated production
is 0 (not positive) and the reported renewable share is 0. -/
theorem claim_C3_witness :
    lookupD (calculate_aggregated []) "renewable_share" (-1) = 0 :=
  claim_C3_aggregation_totals.2 [] (le_refl 0)

/-- C9: for every input source mapping the aggregated dict has exactly the
five keys `total_production`, `total_renewable`, `total_fossil`,
`total_nuclear`, `renewable_share` (in insertion order) and the category
dict exactly the four keys `solar_total`, `wind_total`, `hydro_total`,
`fossil_total`; on the empty mapping every reported value is 0, and a
category none of whose member sources is present reports 0 even when other
sources are (here: `hydro_total` on the solar/wind/gas example). -/
theorem claim_C9_result_keys (sources : List (String × SourceData)) :
    (calculate_aggregated sources).map Prod.fst =
      ["total_production", "total_renewable", "total_fossil", "total_nuclear",
       "renewable_share"]
    ∧ (calculate_categories sources).map Prod.fst =
      ["solar_total", "wind_total", "hydro_total", "fossil_total"]
    ∧ calculate_aggregated [] =
      [ ("total_production", 0), ("total_renewable", 0), ("total_fossil", 0)
      , ("total_nuclear", 0), ("renewable_share", 0) ]
    ∧ calculate_categories [] =
      [ ("solar_total", 0), ("wind_total", 0), ("hydro_total", 0)
      , ("fossil_total", 0) ]
    ∧ lookupD (calculate_categories exAggSources) "hydro_total" (-1) = 0 := by
  refine ⟨rfl, rfl, ?_, ?_, ?_⟩
  · rw [calculate_aggregated]
    norm_num [aggTotals, pyRound2, roundHalfEven, SENSOR_TOTAL_PRODUCTION,
      SENSOR_TOTAL_RENEWABLE, SENSOR_TOTAL_FOSSIL, SENSOR_TOTAL_NUCLEAR,
      SENSOR_RENEWABLE_SHARE]
  · rw [calculate_categories]
    norm_num [sumPresent, getSource, pyRound2, roundHalfEven, FOSSIL_SOURCES,
      SENSOR_SOLAR_TOTAL, SENSOR_WIND_TOTAL, SENSOR_HYDRO_TOTAL, SENSOR_FOSSIL_TOTAL]
  · have h : sumPresent exAggSources
        ["hydro_run-of-river", "hydro_water_reservoir", "hydro_pumped_storage"] = 0 := rfl
    have h2 : pyRound2 0 = 0 := by norm_num [pyRound2, roundHalfEven]
    rw [calculate_categories, h, h2]
    rfl

/-- C2: for every fetch with the default budget of 3 attempts, a 404 on the
first attempt raises the not-found failure immediately, with no retry and
no backoff sleep; a timeout on attempts 1 and 2 followed by a successful
list body on attempt 3 returns that body after exactly the two backoff
sleeps `backoff_factor * 2^0` and `backoff_factor * 2^1`, with no sleep
after the final attempt. -/
theorem claim_C2_retry_policy (script : Nat → AttemptOutcome) (backoff_factor : ℚ)
    (body : List RawItem) :
    (script 0 = AttemptOutcome.http404 →
      make_request script 3 backoff_factor = (Except.error ApiError.notFound, []))
    ∧ (script 0 = AttemptOutcome.timeout → script 1 = AttemptOutcome.timeout →
       script 2 = AttemptOutcome.success body →
       make_request script 3 backoff_factor =
         (Except.ok body, [backoff_factor * 2 ^ 0, backoff_factor * 2 ^ 1])) := by
  constructor
  · intro h0
    simp [make_request, make_request_go, h0]
  · intro h0 h1 h2
    simp [make_request, make_request_go, h0, h1, h2, classify_failure]

/-- Witness for C2: the two scenarios at concrete scripts with
`backoff_factor = 1`. -/
theorem claim_C2_witness :
    make_request ex404Script 3 1 = (Except.error ApiError.notFound, [])
    ∧ make_request exTimeoutScript 3 1 = (Except.ok [], [1 * 2 ^ 0, 1 * 2 ^ 1]) :=
  ⟨(claim_C2_retry_policy ex404Script 1 []).1 rfl,
   (claim_C2_retry_policy exTimeoutScript 1 []).2 rfl rfl rfl⟩

/-- C10: the historical fetch never fails a refresh — for every successful
day-window fetch the update succeeds and its sources, aggregates and
categories do not depend on the historical fetch's outcome; a failed
historical fetch yields the empty history; and when the conversion loop
dies midway the history accumulated so far is returned (here: the entry of
the empty series written before the exception on the nonempty one). -/
theorem claim_C10_history_isolated (response : List EnergyDataSeries)
    (historical_range : String) (hist_fetch : Except ApiError (List EnergyDataSeries))
    (e : ApiError) :
    (∃ d, async_update_data (Except.ok response) historical_range hist_fetch = Except.ok d
       ∧ d.raw_response = response
       ∧ d.sources = (process_response response).sources
       ∧ d.aggregated = (process_response response).aggregated
       ∧ d.categories = (process_response response).categories)
    ∧ fetch_historical_data historical_range (Except.error e) = []
    ∧ fetch_historical_data "week" (Except.ok [exEmptySeries, exHistSeries]) =
        [(source_key_of exEmptySeries, [])] := by
  refine ⟨?_, ?_, rfl⟩
  · by_cases hr : historical_range ≠ "none"
    · exact ⟨{ process_response response with
               history := fetch_historical_data historical_range hist_fetch },
             by simp [async_update_data, hr], rfl, rfl, rfl, rfl⟩
    · exact ⟨process_response response,
             by simp [async_update_data, not_ne_iff.mp hr], rfl, rfl, rfl, rfl⟩
  · rw [fetch_historical_data]
    split
    · rfl
    · rfl

/-! ### Key derivation lemmas (for C4) -/

theorem mem_of_mem_replaceChar {a b c : Char} {s : List Char}
    (h : c ∈ replaceChar a b s) : c = b ∨ (c ∈ s ∧ c ≠ a) := by
  simp only [replaceChar, List.mem_map] at h
  obtain ⟨d, hd, hc⟩ := h
  by_cases hda : d = a
  · subst hda
    rw [if_pos rfl] at hc
    exact Or.inl hc.symm
  · rw [if_neg hda] at hc
    subst hc
    exact Or.inr ⟨hd, hda⟩

theorem mem_of_mem_removeChar {a c : Char} {s : List Char}
    (h : c ∈ removeChar a s) : c ∈ s ∧ c ≠ a := by
  simpa only [removeChar, List.mem_filter, ne_eq, decide_eq_true_eq] using h

theorem scrubbed_no_forbidden {c : Char} {name : List Char}
    (h : c ∈ scrubbed name) : forbiddenChar c = false := by
  obtain ⟨h1, hcomma⟩ := mem_of_mem_removeChar h
  obtain ⟨h2, hclose⟩ := mem_of_mem_removeChar h1
  obtain ⟨h3, hopen⟩ := mem_of_mem_removeChar h2
  rcases mem_of_mem_replaceChar h3 with hu | ⟨h4, hdash⟩
  · subst hu; rfl
  rcases mem_of_mem_replaceChar h4 with hu | ⟨h5, hslash⟩
  · subst hu; rfl
  rcases mem_of_mem_replaceChar h5 with hu | ⟨_, hspace⟩
  · subst hu; rfl
  simp [forbiddenChar, hspace, hslash, hdash, hopen, hclose, hcomma]

theorem replaceDD_sublist : ∀ s : List Char, List.Sublist (replaceDD s) s
  | [] => List.Sublist.refl []
  | [c] => List.Sublist.refl [c]
  | c1 :: c2 :: rest => by
    rw [replaceDD]
    split
    · rename_i hu
      obtain ⟨hu1, hu2⟩ := hu
      subst hu1
      subst hu2
      exact List.Sublist.cons₂ '_' (List.Sublist.cons '_' (replaceDD_sublist rest))
    · exact List.Sublist.cons₂ c1 (replaceDD_sublist (c2 :: rest))

theorem replaceDD_length_lt : ∀ s : List Char, hasDD s = true → (replaceDD s).length < s.length
  | [], h => by simp [hasDD] at h
  | [c], h => by simp [hasDD] at h
  | c1 :: c2 :: rest, h => by
    rw [replaceDD]
    split
    · have hle := (replaceDD_sublist rest).length_le
      simp only [List.length_cons]
      omega
    · rename_i hne
      rw [hasDD] at h
      simp only [Bool.or_eq_true, Bool.and_eq_true, beq_iff_eq] at h
      rcases h with h | h
      · exact absurd h hne
      · have := replaceDD_length_lt (c2 :: rest) h
        simp only [List.length_cons] at this ⊢
        omega

theorem hasDD_collapseDD : ∀ (fuel : Nat) (s : List Char), s.length ≤ fuel →
    hasDD (collapseDD fuel s) = false
  | 0, s, h => by
    have hs : s = [] := List.eq_nil_of_length_eq_zero (Nat.le_zero.mp h)
    subst hs
    rfl
  | fuel + 1, s, h => by
    rw [collapseDD]
    by_cases hdd : hasDD s = true
    · rw [if_pos hdd]
      have hlt := replaceDD_length_lt s hdd
      exact hasDD_collapseDD fuel (replaceDD s) (by omega)
    · rw [if_neg hdd]
      exact Bool.eq_false_iff.mpr hdd

theorem mem_of_mem_collapseDD {c : Char} : ∀ (fuel : Nat) (s : List Char),
    c ∈ collapseDD fuel s → c ∈ s
  | 0, _, h => h
  | fuel + 1, s, h => by
    rw [collapseDD] at h
    split at h
    · exact (replaceDD_sublist s).subset (mem_of_mem_collapseDD fuel (replaceDD s) h)
    · exact h

theorem head_lstripU : ∀ s : List Char, (lstripU s).head? ≠ some '_'
  | [] => by simp [lstripU]
  | c :: rest => by
    rw [lstripU, List.dropWhile_cons]
    split
    · exact head_lstripU rest
    · rename_i hnc
      simp only [List.head?_cons, ne_eq, Option.some.injEq]
      intro hc
      exact hnc (by simp [hc])

theorem hasDD_tail : ∀ {c : Char} {s : List Char}, hasDD (c :: s) = false → hasDD s = false
  | _, [], _ => rfl
  | c, d :: rest, h => by
    rw [hasDD] at h
    exact (Bool.or_eq_false_iff.mp h).2

theorem hasDD_lstripU : ∀ s : List Char, hasDD s = false → hasDD (lstripU s) = false
  | [], h => h
  | c :: rest, h => by
    rw [lstripU, List.dropWhile_cons]
    split
    · exact hasDD_lstripU rest (hasDD_tail h)
    · exact h

theorem rstripU_sublist : ∀ s : List Char, List.Sublist (rstripU s) s
  | [] => List.Sublist.refl []
  | c :: rest => by
    rw [rstripU]
    cases hr : rstripU rest with
    | nil =>
      by_cases hc : c = '_'
      · rw [if_pos hc]
        exact List.nil_sublist _
      · rw [if_neg hc]
        exact List.Sublist.cons₂ c (List.nil_sublist rest)
    | cons d r' =>
      have ih := rstripU_sublist rest
      rw [hr] at ih
      exact List.Sublist.cons₂ c ih

theorem rstripU_head : ∀ s : List Char, rstripU s = [] ∨ (rstripU s).head? = s.head?
  | [] => Or.inl rfl
  | c :: rest => by
    rw [rstripU]
    cases hr : rstripU rest with
    | nil =>
      by_cases hc : c = '_'
      · exact Or.inl (by simp [hc])
      · right
        simp [hc]
    | cons d r' =>
      right
      simp

theorem rstripU_getLast : ∀ s : List Char, (rstripU s).getLast? ≠ some '_'
  | [] => by simp [rstripU]
  | c :: rest => by
    rw [rstripU]
    cases hr : rstripU rest with
    | nil =>
      by_cases hc : c = '_'
      · simp [hc]
      · simp [hc]
    | cons d r' =>
      have ih := rstripU_getLast rest
      rw [hr] at ih
      simpa [List.getLast?_cons_cons] using ih

theorem hasDD_rstripU : ∀ s : List Char, hasDD s = false → hasDD (rstripU s) = false
  | [], h => h
  | c :: rest, h => by
    rw [rstripU]
    cases hr : rstripU rest with
    | nil =>
      by_cases hc : c = '_'
      · simp [hc, hasDD]
      · simp [hc, hasDD]
    | cons d r' =>
      have ih := hasDD_rstripU rest (hasDD_tail h)
      rw [hr] at ih
      have hh := rstripU_head rest
      rw [hr] at hh
      rcases hh with hcon | hh
      · exact absurd hcon (by simp)
      cases rest with
      | nil => simp [rstripU] at hr
      | cons e rest' =>
        have hde : d = e := by simpa using hh
        subst hde
        rw [hasDD] at h ⊢
        rw [Bool.or_eq_false_iff] at h ⊢
        exact ⟨h.1, ih⟩

theorem stripU_head (s : List Char) : (stripU s).head? ≠ some '_' := by
  rw [stripU]
  rcases rstripU_head (lstripU s) with hnil | hh
  · rw [hnil]
    simp
  · rw [hh]
    exact head_lstripU s

/-- C4 (amended): for every `EnergyDataSeries`, the derived source key is the
English display name lowercased with each space, slash and hyphen replaced by
an underscore, parentheses and commas deleted, consecutive underscores
collapsed and leading/trailing underscores trimmed; consequently it contains
no space, slash, hyphen, parenthesis or comma, never two consecutive
underscores, and neither starts nor ends with an underscore (other
non-alphanumeric characters, such as `.`, are retained as-is); on the
documented example the derivation gives
`"Fossil brown coal / lignite" ↦ fossil_brown_coal_lignite`. -/
theorem claim_C4_amended_key_shape (s : EnergyDataSeries) :
    ((series_key s).data.all (fun c => !(forbiddenChar c)) = true
    ∧ hasDD (series_key s).data = false
    ∧ (series_key s).data.head? ≠ some '_'
    ∧ (series_key s).data.getLast? ≠ some '_')
    ∧ derive_key "Fossil brown coal / lignite" = "fossil_brown_coal_lignite" := by
  refine ⟨?_, by decide⟩
  have hdata : (series_key s).data =
      stripU (collapseDD (scrubbed (pyLower (name_en s).data)).length
        (scrubbed (pyLower (name_en s).data))) := rfl
  rw [hdata]
  have hnodd : hasDD (collapseDD (scrubbed (pyLower (name_en s).data)).length
      (scrubbed (pyLower (name_en s).data))) = false :=
    hasDD_collapseDD _ _ (le_refl _)
  refine ⟨?_, ?_, stripU_head _, rstripU_getLast _⟩
  · apply List.all_eq_true.mpr
    intro c hc
    have hc1 : c ∈ lstripU (collapseDD (scrubbed (pyLower (name_en s).data)).length
        (scrubbed (pyLower (name_en s).data))) := (rstripU_sublist _).subset hc
    have hc2 := (List.dropWhile_sublist _).subset hc1
    have hc3 := mem_of_mem_collapseDD _ _ hc2
    rw [scrubbed_no_forbidden hc3]
    rfl
  · exact hasDD_rstripU _ (hasDD_lstripU _ hnodd)

/-- C4 (counterexample): the series named `a.b` gets key `a.b` — the dot, a
non-alphanumeric character other than underscore, survives, so the key is
not the claimed collapse of every non-alphanumeric run. -/
theorem claim_C4_counterexample :
    series_key exDotSeries = "a.b"
    ∧ '.' ∈ (series_key exDotSeries).data
    ∧ ('.'.isAlphanum || '.' == '_') = false := by
  decide

/-! ### Normalizer lemmas (for C5 and C6) -/

/-- Every series `parse_items` produces carries the shared timestamp axis
and takes its value list verbatim from some retained input item. -/
theorem parse_items_fields : ∀ (ts : List Int) (items : List RawItem)
    (out : List EnergyDataSeries), parse_items ts items = some out →
    ∀ s ∈ out, s.timestamps = ts ∧
      ∃ item ∈ items, item.name.isSome ∧ item.data = some s.data
  | ts, [], out, h => by
    rw [parse_items] at h
    cases h
    intro s hs
    simp at hs
  | ts, item :: rest, out, h => by
    rw [parse_items] at h
    cases hn : item.name with
    | none =>
      simp only [hn] at h
      intro s hs
      obtain ⟨hts, it, hit, hname, hdata⟩ := parse_items_fields ts rest out h s hs
      exact ⟨hts, it, List.mem_cons_of_mem _ hit, hname, hdata⟩
    | some nameRaw =>
      cases hd : item.data with
      | none =>
        simp only [hn, hd] at h
        intro s hs
        obtain ⟨hts, it, hit, hname, hdata⟩ := parse_items_fields ts rest out h s hs
        exact ⟨hts, it, List.mem_cons_of_mem _ hit, hname, hdata⟩
      | some dataRaw =>
        simp only [hn, hd] at h
        cases hv : validate_name_dict (normalize_name nameRaw) with
        | none =>
          simp only [hv] at h
          exact Option.noConfusion h
        | some nm =>
          simp only [hv] at h
          cases hp : parse_items ts rest with
          | none =>
            simp only [hp] at h
            exact Option.noConfusion h
          | some tail =>
            simp only [hp, Option.some.injEq] at h
            subst h
            intro s hs
            rcases List.mem_cons.mp hs with rfl | hs'
            · exact ⟨rfl, item, List.mem_cons_self _ _, by rw [hn]; rfl, hd⟩
            · obtain ⟨hts, it, hit, hname, hdata⟩ := parse_items_fields ts rest tail hp s hs'
              exact ⟨hts, it, List.mem_cons_of_mem _ hit, hname, hdata⟩

/-- C5 (amended): for every raw API response in which each retained item's
value list has the same length as the first object's `xAxisValues` axis,
every series the Response Normalizer produces has timestamp and value
sequences of equal length.  (The normalizer itself never checks this: it
stamps the first object's axis onto every series unconditionally.) -/
theorem claim_C5_amended_lengths (rd : List RawItem) (out : List EnergyDataSeries)
    (hout : from_api_response rd = some out)
    (hlen : ∀ item ∈ rd, item.name.isSome →
      ∀ d, item.data = some d → d.length = (response_axis rd).length) :
    ∀ s ∈ out, s.timestamps.length = s.data.length := by
  intro s hs
  cases rd with
  | nil =>
    rw [from_api_response] at hout
    cases hout
    simp at hs
  | cons first rest =>
    rw [from_api_response] at hout
    obtain ⟨hts, it, hit, hname, hdata⟩ := parse_items_fields _ _ _ hout s hs
    have hl := hlen it hit hname s.data hdata
    rw [response_axis] at hl
    rw [hts]
    exact hl.symm

/-- Witness for C5 (amended): a well-formed one-series response with a
two-value list on a two-element axis. -/
theorem claim_C5_witness :
    from_api_response exAlignedResponse = some [exAlignedSeries]
    ∧ exAlignedSeries.timestamps.length = exAlignedSeries.data.length :=
  ⟨rfl,
   claim_C5_amended_lengths exAlignedResponse [exAlignedSeries] rfl
     (by
       intro item him hname d hd
       simp only [exAlignedResponse, List.mem_singleton] at him
       subst him
       injection hd with hd'
       subst hd'
       decide)
     exAlignedSeries (List.mem_singleton.mpr rfl)⟩

/-- C5 (counterexample): a response whose only series has three values
against a one-element axis is normalized without complaint into a series
whose timestamp sequence (length 1) and value sequence (length 3) differ. -/
theorem claim_C5_counterexample :
    from_api_response exMismatchedResponse = some [exMismatchedSeries]
    ∧ exMismatchedSeries.timestamps.length ≠ exMismatchedSeries.data.length := by
  exact ⟨rfl, by decide⟩

/-- C6 (amended): a nonempty sequence normalizes to its first element,
whatever it is (in particular a one-element sequence containing a mapping
yields that mapping); a mapping is returned unchanged; an empty sequence or
a non-sequence, non-mapping value yields the empty mapping. -/
theorem claim_C6_amended_normalize (v : JVal) :
    (∀ (x : JVal) (xs : List JVal), v = JVal.arr (x :: xs) → normalize_name v = x)
    ∧ (∀ d : List (String × JVal), v = JVal.dict d → normalize_name v = JVal.dict d)
    ∧ ((v = JVal.arr [] ∨ ((∀ xs, v ≠ JVal.arr xs) ∧ ∀ d, v ≠ JVal.dict d)) →
        normalize_name v = JVal.dict []) := by
  refine ⟨?_, ?_, ?_⟩
  · rintro x xs rfl
    rfl
  · rintro d rfl
    rfl
  · rintro (rfl | ⟨harr, hdict⟩)
    · rfl
    · cases v with
      | arr xs => exact absurd rfl (harr xs)
      | dict d => exact absurd rfl (hdict d)
      | null => rfl
      | bool b => rfl
      | num q => rfl
      | str s => rfl

/-- Witness for C6 (amended): the three normalization shapes at concrete
values. -/
theorem claim_C6_witness :
    normalize_name (JVal.arr [JVal.dict [("en", JVal.str "Solar")]])
      = JVal.dict [("en", JVal.str "Solar")]
    ∧ normalize_name (JVal.dict [("en", JVal.str "Solar")])
      = JVal.dict [("en", JVal.str "Solar")]
    ∧ normalize_name (JVal.str "Solar") = JVal.dict [] :=
  ⟨(claim_C6_amended_normalize (JVal.arr [JVal.dict [("en", JVal.str "Solar")]])).1
      (JVal.dict [("en", JVal.str "Solar")]) [] rfl,
   (claim_C6_amended_normalize (JVal.dict [("en", JVal.str "Solar")])).2.1
      [("en", JVal.str "Solar")] rfl,
   (claim_C6_amended_normalize (JVal.str "Solar")).2.2
      (Or.inr ⟨fun _ h => JVal.noConfusion h, fun _ h => JVal.noConfusion h⟩)⟩

/-- C6 (counterexample): a two-element sequence is not "a one-element
sequence containing a mapping", a mapping, an empty sequence, or a
non-sequence value, yet normalization returns its first element, not the
empty mapping the claim prescribes for every other shape. -/
theorem claim_C6_counterexample :
    normalize_name (JVal.arr [JVal.dict [("en", JVal.str "A")], JVal.dict [("en", JVal.str "B")]])
      = JVal.dict [("en", JVal.str "A")]
    ∧ normalize_name (JVal.arr [JVal.dict [("en", JVal.str "A")], JVal.dict [("en", JVal.str "B")]])
      ≠ JVal.dict [] :=
  ⟨rfl, fun h => by
    have := JVal.dict.inj h
    cases this⟩

end EnergyCharts

